import Mathlib

/-!
Verification of the C macro-expansion engine and typed-AST passes of this
repository against its natural-language specification.

The macro engine is embedded from `src/macro_set.rs`; the type model from
`src/ast/ty.rs`; the finish-pass typing rules from `src/ast/expr.rs`.
The literal module (`Lit`, `LitIdent` parsing and arithmetic) is not among
the provided source files, so those parts are modelled from the spec
(section 4.1 and 4.4) and are marked as such in their doc comments.
General recursion of the rescan loop is embedded with an explicit fuel
parameter; running out of fuel is a distinguished outcome `noFuel`, and a
Rust panic (an out-of-bounds index or a failing unwrap) is the outcome
`panicked`.
-/

namespace CM

/-- Embeds `BuiltInType` from `src/ast/ty.rs` (lines 19-62): the fixed C
scalar kinds. -/
inductive BuiltInType where
  | float
  | double
  | longDouble
  | bool
  | char
  | schar
  | uchar
  | char8T
  | char16T
  | char32T
  | short
  | ushort
  | int
  | uint
  | long
  | ulong
  | longLong
  | ulongLong
  | sizeT
  | ssizeT
  | void
deriving DecidableEq

/-- Embeds `ExpansionError` from `src/macro_set.rs` (lines 85-113). -/
inductive ExpErr where
  | macroNotFound
  | missingOpenParenthesis (c : Char)
  | unclosedParenthesis (c : Char)
  | fnMacroArgumentError (name : String) (required : Nat) (given : Nat)
  | concatBegin
  | concatEnd
  | nonVariadicVarArgs
  | nonUniqueArgument (a : String)
  | stringifyNonArgument
  | invalidConcat
deriving DecidableEq

/-- Outcome of an embedded engine call: `ok`/`err` mirror Rust's
`Result<_, ExpansionError>`, `panicked` is a Rust panic (out-of-bounds
index, failing unwrap), and `noFuel` is the embedding's fuel running out
(not a behaviour of the code). -/
inductive Res (α : Type) where
  | ok (a : α)
  | err (e : ExpErr)
  | panicked
  | noFuel
deriving DecidableEq

instance : Monad Res where
  pure := .ok
  bind r f :=
    match r with
    | .ok a => f a
    | .err e => .err e
    | .panicked => .panicked
    | .noFuel => .noFuel

/-- Embeds `LitFloat` (its module is not in the provided sources).
Modelled from the spec: only the `double` form arises from parsing a
macro token; the numeric value is kept exactly as a rational. -/
inductive LitFloat where
  | double (value : Rat)
deriving DecidableEq

/-- Embeds `Lit` (its module is not in the provided sources).
Modelled from the spec: section 4.1 classifies literals into integer,
float, char and string literals, the latter two with an optional
`u8`/`u`/`U`/`L` encoding prefix. -/
inductive Lit where
  | int (value : Int) (suffix : Option BuiltInType)
  | float (value : LitFloat)
  | str (pfx : Option String) (content : String)
  | chr (pfx : Option String) (content : String)
deriving DecidableEq

/-- Character-list string operations: the byte-position-based `String`
primitives do not reduce in the kernel, so prefix, suffix, drop and trim
are written over the character list. -/
def strStarts (s pre : String) : Bool :=
  pre.toList.isPrefixOf s.toList

/-- Suffix test over the character list. -/
def strEnds (s suf : String) : Bool :=
  suf.toList.isSuffixOf s.toList

/-- Drop `n` characters from the front. -/
def strDropL (s : String) (n : Nat) : String :=
  String.mk (s.toList.drop n)

/-- Drop `n` characters from the back. -/
def strDropR (s : String) (n : Nat) : String :=
  String.mk (s.toList.take (s.toList.length - n))

/-- Whitespace trim over the character list (Rust `str::trim`). -/
def strTrim (s : String) : String :=
  String.mk (((s.toList.dropWhile Char.isWhitespace).reverse.dropWhile Char.isWhitespace).reverse)

/-- Decimal value of a digit list. -/
def digitsVal (cs : List Char) : Nat :=
  cs.foldl (fun a c => a * 10 + (c.toNat - 48)) 0

/-- Splits the longest prefix of decimal digits off a character list. -/
def splitDigits : List Char → List Char × List Char
  | [] => ([], [])
  | c :: cs =>
    if c.isDigit then
      let (d, r) := splitDigits cs
      (c :: d, r)
    else
      ([], c :: cs)

/-- Mantissa-with-fraction value: digits before and after the dot. -/
def fracVal (d1 d2 : List Char) : Rat :=
  (digitsVal (d1 ++ d2) : Rat) / ((10 : Rat) ^ d2.length)

/-- Applies an optional decimal exponent (after `e`/`E`) to a mantissa. -/
def applyExp (m : Rat) : List Char → Option Rat
  | [] => none
  | '+' :: r => if r ≠ [] ∧ r.all Char.isDigit then some (m * (10 : Rat) ^ digitsVal r) else none
  | '-' :: r =>
    if r ≠ [] ∧ r.all Char.isDigit then some (m / ((10 : Rat) ^ digitsVal r)) else none
  | r => if r.all Char.isDigit then some (m * (10 : Rat) ^ digitsVal r) else none

/-- Modelled from the spec: float-literal parsing (section 4.1). A float
token is digits with a decimal dot (either side may be empty, not both)
and an optional exponent, or digits with an exponent. Hex floats and
suffixes are not exercised by any claim and are left out. -/
def parseFloatStr (s : String) : Option Rat :=
  let (d1, r1) := splitDigits s.toList
  match r1 with
  | '.' :: r2 =>
    let (d2, r3) := splitDigits r2
    if d1.isEmpty ∧ d2.isEmpty then none
    else
      match r3 with
      | [] => some (fracVal d1 d2)
      | 'e' :: r4 => applyExp (fracVal d1 d2) r4
      | 'E' :: r4 => applyExp (fracVal d1 d2) r4
      | _ => none
  | 'e' :: r4 => if d1.isEmpty then none else applyExp (digitsVal d1 : Rat) r4
  | 'E' :: r4 => if d1.isEmpty then none else applyExp (digitsVal d1 : Rat) r4
  | _ => none

/-- Content of a double-quoted piece, if `s` is one. -/
def parseQuoted (s : String) : Option String :=
  if strStarts s "\"" ∧ strEnds s "\"" ∧ 2 ≤ s.toList.length then
    some (strDropR (strDropL s 1) 1)
  else
    none

/-- Content of a single-quoted piece, if `s` is one. -/
def parseQuotedChar (s : String) : Option String :=
  if strStarts s "'" ∧ strEnds s "'" ∧ 3 ≤ s.toList.length then
    some (strDropR (strDropL s 1) 1)
  else
    none

/-- Modelled from the spec: string-literal parsing with the encoding
prefixes `u8`/`u`/`U`/`L` (section 4.1); escape decoding is not exercised
by any claim and the raw content is kept. -/
def litStrFromStr (s : String) : Option Lit :=
  match parseQuoted s with
  | some c => some (.str none c)
  | none =>
    if strStarts s "u8" then (parseQuoted (strDropL s 2)).map (.str (some "u8"))
    else if strStarts s "u" then (parseQuoted (strDropL s 1)).map (.str (some "u"))
    else if strStarts s "U" then (parseQuoted (strDropL s 1)).map (.str (some "U"))
    else if strStarts s "L" then (parseQuoted (strDropL s 1)).map (.str (some "L"))
    else none

/-- Modelled from the spec: char-literal parsing with the encoding
prefixes (section 4.1). -/
def litChrFromStr (s : String) : Option Lit :=
  match parseQuotedChar s with
  | some c => some (.chr none c)
  | none =>
    if strStarts s "u8" then (parseQuotedChar (strDropL s 2)).map (.chr (some "u8"))
    else if strStarts s "u" then (parseQuotedChar (strDropL s 1)).map (.chr (some "u"))
    else if strStarts s "U" then (parseQuotedChar (strDropL s 1)).map (.chr (some "U"))
    else if strStarts s "L" then (parseQuotedChar (strDropL s 1)).map (.chr (some "L"))
    else none

/-- Modelled from the spec: `Lit::try_from(&str)` (the literal module is
not in the provided sources). Classification order: integer, float,
string, char (section 4.1). Integer tokens are decimal digit runs; octal
and hex forms and integer suffixes are not exercised by any claim. -/
def litFromStr (s : String) : Option Lit :=
  if 0 < s.toList.length ∧ s.toList.all Char.isDigit then
    some (.int (digitsVal s.toList) none)
  else
    match parseFloatStr s with
    | some q => some (.float (.double q))
    | none =>
      match litStrFromStr s with
      | some l => some l
      | none => litChrFromStr s

/-- Embeds `LitIdent::try_from(&str)`: a token is an identifier when its
first character may start an identifier (XID start or underscore) and the
rest may continue one; restricted to ASCII, which covers every claim. -/
def identFromStr (s : String) : Option String :=
  match s.toList with
  | [] => none
  | c :: cs =>
    if (c.isAlpha ∨ c = '_') ∧ cs.all (fun d => d.isAlphanum ∨ d = '_') then
      some s
    else
      none

/-- Embeds `is_punctuation` from `src/macro_set.rs` (lines 14-72). -/
def isPunctuation (s : String) : Bool :=
  s ∈ ["[", "]", "(", ")", "\x7b", "\x7d", ".", "->", "++", "--", "&", "*",
    "+", "-", "~", "!", "/", "%", "<<", ">>", "<", ">", "<=", ">=", "==",
    "!=", "^", "|", "&&", "||", "?", ":", ";", "...", "=", "*=", "/=", "%=",
    "+=", "-=", "<<=", ">>=", "&=", "^=", "|=", ",", "#", "##", "<:", ":>",
    "<%", "%>", "%:", "%:%:"]

/-- Embeds `is_comment` from `src/macro_set.rs` (lines 138-140). -/
def isCommentStr (s : String) : Bool :=
  (strStarts s "/*" && strEnds s "*/") || strStarts s "//"

/-- Embeds `is_whitespace` from `src/macro_set.rs` (lines 142-145). -/
def isWhitespace (s : String) : Bool :=
  let t := strTrim s
  t.toList.isEmpty || isCommentStr t

/-- Embeds `Comment::try_from(&str)` from `src/token.rs`: a block comment
`/* ... */`; the check that no earlier `*/` occurs inside is dropped, which
no claim exercises. -/
def commentFromStr (s : String) : Option String :=
  if strStarts s "/*" ∧ strEnds s "*/" ∧ 4 ≤ s.toList.length then
    some (strDropR (strDropL s 2) 2)
  else
    none

/-- Embeds the internal `Token` type from `src/macro_set.rs`
(lines 405-425). -/
inductive Tok where
  | nonReplacable (t : Tok)
  | macroArg (index : Nat)
  | varArgs
  | punctuation (s : String)
  | identifier (id : String)
  | literal (l : Lit) (repr : String)
  | plain (s : String)
  | comment (s : String)
  | placemarker
deriving DecidableEq

/-- Embeds `Token::from_str` from `src/macro_set.rs` (lines 170-184). -/
def Tok.fromStr (t : String) : Tok :=
  if t = "__VA_ARGS__" then .varArgs
  else
    match identFromStr t with
    | some id => .identifier id
    | none =>
      match litFromStr t with
      | some l => .literal l t
      | none =>
        if isPunctuation t then .punctuation t
        else
          match commentFromStr t with
          | some c => .comment c
          | none => .plain t

/-- Embeds `tokenize` from `src/macro_set.rs` (lines 147-158). -/
def tokenizeBody (argNames : List String) (tokens : List String) : List Tok :=
  tokens.map fun t =>
    match argNames.findIdx? (fun a => a = t) with
    | some i => .macroArg i
    | none => Tok.fromStr t

end CM

namespace CM

/-- Embeds `Token::concat_punctuation` from `src/macro_set.rs`
(lines 225-257); `none` is the `InvalidConcat` fall-through. -/
def concatPunct (l r : String) : Option String :=
  match l, r with
  | "-", ">" => some "->"
  | "+", "+" => some "++"
  | "-", "-" => some "--"
  | "<", "<" => some "<<"
  | ">", ">" => some ">>"
  | "<", "=" => some "<="
  | ">", "=" => some ">="
  | "=", "=" => some "=="
  | "!", "=" => some "!="
  | "&", "&" => some "&&"
  | "|", "|" => some "||"
  | "*", "=" => some "*="
  | "/", "=" => some "/="
  | "%", "=" => some "%="
  | "+", "=" => some "+="
  | "-", "=" => some "-="
  | "<<", "=" => some "<<="
  | "<", "<=" => some "<<="
  | ">>", "=" => some ">>="
  | ">", ">=" => some ">>="
  | "&", "=" => some "&="
  | "^", "=" => some "^="
  | "|", "=" => some "|="
  | "#", "#" => some "##"
  | "<", ":" => some "<:"
  | ":", ">" => some ":>"
  | "<", "%" => some "<%"
  | "%", ">" => some "%>"
  | "%", ":" => some "%:"
  | "%:", "%:" => some "%:%:"
  | _, _ => none

/-- Reclassification of a pasted token at the end of `Token::concat`
(lines 332-338): identifier, else literal, else plain. -/
def reclassifyTok (s : String) : Tok :=
  match identFromStr s with
  | some id => .identifier id
  | none =>
    match litFromStr s with
    | some l => .literal l s
    | none => .plain s

/-- Whether every character of the pasted float repr continues an
identifier (`unicode_ident::is_xid_continue`, ASCII restriction). -/
def allContinue (s : String) : Bool :=
  s.toList.all fun c => c.isAlphanum || c = '_'

/-- Strips `NonReplacable` wrappers: the first two arms of `Token::concat`
(lines 261-262) recurse into the wrapped token on either side, which is
the same as unwrapping both operands first. -/
def Tok.stripNR : Tok → Tok
  | .nonReplacable t => t.stripNR
  | t => t

/-- Embeds `Token::concat` from `src/macro_set.rs` (lines 259-339) after
`NonReplacable` unwrapping. The two `unwrap` calls of the source are
embedded as `panicked` when the reparse fails; the final `unreachable!`
arm is `panicked` as well. -/
def Tok.concatCore : Tok → Tok → Res Tok
  | .placemarker, rhs => .ok rhs
  | lhs, .placemarker => .ok lhs
  | .identifier l, .identifier r => .ok (.identifier (l ++ r))
  | .punctuation l, .punctuation r =>
    match concatPunct l r with
    | some p => .ok (.nonReplacable (.punctuation p))
    | none => .err .invalidConcat
  | .literal (.str _ _) _, _ => .err .invalidConcat
  | .literal (.chr _ _) _, _ => .err .invalidConcat
  | .punctuation l, .literal lit r =>
    if l = "." then
      match lit with
      | .str _ _ => .err .invalidConcat
      | .chr _ _ => .err .invalidConcat
      | .int _ _ =>
        match litFromStr (l ++ r) with
        | some lit2 => .ok (.literal lit2 (l ++ r))
        | none => .err .invalidConcat
      | .float _ =>
        match litFromStr (l ++ r) with
        | some lit2 => .ok (.literal lit2 (l ++ r))
        | none => .err .invalidConcat
    else
      .err .invalidConcat
  | .identifier l, .literal lit r =>
    match lit with
    | .str none _ =>
      if l = "u8" ∨ l = "u" ∨ l = "U" ∨ l = "L" then
        match litFromStr (l ++ r) with
        | some lit2 => .ok (.literal lit2 (l ++ r))
        | none => .panicked
      else
        .err .invalidConcat
    | .chr none _ =>
      if l = "u8" ∨ l = "u" ∨ l = "U" ∨ l = "L" then
        match litFromStr (l ++ r) with
        | some lit2 => .ok (.literal lit2 (l ++ r))
        | none => .panicked
      else
        .err .invalidConcat
    | .str (some _) _ => .err .invalidConcat
    | .chr (some _) _ => .err .invalidConcat
    | .int _ _ => .ok (.identifier (l ++ r))
    | .float _ =>
      if allContinue r then
        match identFromStr (l ++ r) with
        | some id => .ok (.identifier id)
        | none => .panicked
      else
        .err .invalidConcat
  | .identifier l, .plain r => .ok (reclassifyTok (l ++ r))
  | .literal _ l, .identifier r => .ok (reclassifyTok (l ++ r))
  | .literal _ l, .literal _ r => .ok (reclassifyTok (l ++ r))
  | .literal _ l, .plain r => .ok (reclassifyTok (l ++ r))
  | .plain l, .identifier r => .ok (reclassifyTok (l ++ r))
  | .plain l, .literal _ r => .ok (reclassifyTok (l ++ r))
  | .plain l, .plain r => .ok (reclassifyTok (l ++ r))
  | .punctuation _, _ => .err .invalidConcat
  | _, .punctuation _ => .err .invalidConcat
  | _, _ => .panicked

/-- Embeds `Token::concat`: unwrap `NonReplacable` on both sides, then
the main match. -/
def Tok.concat (l r : Tok) : Res Tok :=
  Tok.concatCore l.stripNR r.stripNR

/-- Embeds `StringifyAction` from `src/macro_set.rs` (lines 160-167). -/
inductive StrAct where
  | keep
  | skip
  | append (s : String)

/-- Embeds `Token::stringify` from `src/macro_set.rs` (lines 186-209). -/
def Tok.stringifyAct (nested : Bool) : Tok → StrAct
  | .macroArg _ => .keep
  | .varArgs => if nested then .keep else .append "__VA_ARGS__"
  | .identifier id =>
    if (id = "__LINE__" ∨ id = "__FILE__") ∧ nested then .keep else .append id
  | .nonReplacable t => t.stringifyAct nested
  | .literal _ r => .append r
  | .plain t => .append t
  | .punctuation t => .append t
  | .comment _ => .skip
  | .placemarker => .skip

/-- Repr of the produced string literal; the source uses Rust debug
formatting, whose escaping no claim exercises. -/
def quoteRepr (s : String) : String :=
  "\"" ++ s ++ "\""

/-- Loop of the free function `stringify` from `src/macro_set.rs`
(lines 342-382): accumulates kept tokens and the built string. -/
def stringifyGo (nested : Bool) :
    List Tok → Bool → Option String → List Tok → List Tok × Option String
  | acc, _, cur, [] => (acc, cur)
  | acc, sbn, cur, t :: it =>
    match t.stringifyAct nested with
    | .keep => stringifyGo nested (acc ++ [.punctuation "#", t]) sbn cur it
    | .skip => stringifyGo nested acc sbn cur it
    | .append s =>
      let c0 := cur.getD ""
      let c1 :=
        if s ≠ ")" ∧ s ≠ "]" ∧ s ≠ "\x7d" ∧ s ≠ "." ∧ s ≠ "," ∧ s ≠ "(" ∧ sbn then
          c0 ++ " "
        else
          c0
      let sbn2 := ¬(s = "(" ∨ s = "[" ∨ s = "\x7b" ∨ s = ".")
      stringifyGo nested acc sbn2 (some (c1 ++ s)) it

/-- Embeds the free function `stringify` from `src/macro_set.rs`
(lines 342-382). -/
def stringifyToks (tokens : List Tok) (nested : Bool) : List Tok :=
  let (acc, cur) := stringifyGo nested [] false none tokens
  let acc2 :=
    acc ++
      match cur with
      | some s => [Tok.literal (.str none s) (quoteRepr s)]
      | none => []
  if acc2.isEmpty then [Tok.literal (.str none "") "\"\""] else acc2

/-- Embeds the public `MacroToken` type from `src/macro_set.rs`
(lines 389-403). -/
inductive MacroToken where
  | arg (index : Nat)
  | id (s : String)
  | lit (l : Lit)
  | punctuation (s : String)
  | token (s : String)
  | comment (s : String)
deriving DecidableEq

/-- Embeds `Token::detokenize` from `src/macro_set.rs` (lines 211-223).
The source computes `arg_names.len() - 1` for `VarArgs`: with no
parameters that underflows and panics in Rust, but every call site
guards `VarArgs` behind the variadic check, so Nat subtraction is
faithful on reachable inputs. -/
def Tok.detok (argNames : List String) : Tok → Option MacroToken
  | .macroArg i => some (.arg i)
  | .varArgs => some (.arg (argNames.length - 1))
  | .identifier id => some (.id id)
  | .literal l _ => some (.lit l)
  | .plain t => some (.token t)
  | .punctuation t => some (.token t)
  | .comment t => some (.comment t)
  | .nonReplacable t => t.detok argNames
  | .placemarker => none

/-- Embeds the free function `detokenize` from `src/macro_set.rs`
(lines 384-386). -/
def detokList (argNames : List String) (tokens : List Tok) : List MacroToken :=
  tokens.filterMap (Tok.detok argNames)

end CM

namespace CM

/-- The open-curly-bracket character, written by code point. -/
def curlyOpenCh : Char := Char.ofNat 123

/-- The close-curly-bracket character, written by code point. -/
def curlyCloseCh : Char := Char.ofNat 125

/-- Loop of `MacroSet::collect_args` from `src/macro_set.rs`
(lines 575-620): `parens` is the bracket stack (head is the top), `args`
the collected arguments, `current` the argument being read. -/
def collectArgsGo :
    List Char → List (List Tok) → List Tok → List Tok →
    Except ExpErr (List (List Tok) × List Tok)
  | _, _, _, [] => .error (.unclosedParenthesis '(')
  | parens, args, current, t :: rest =>
    match t with
    | .punctuation p =>
      if p = "(" then collectArgsGo ('(' :: parens) args (current ++ [t]) rest
      else if p = ")" then
        match parens with
        | [] => .ok (args ++ [current], rest)
        | q :: ps =>
          if q = '(' then collectArgsGo ps args (current ++ [t]) rest
          else .error (.unclosedParenthesis q)
      else if p = "[" then collectArgsGo ('[' :: parens) args (current ++ [t]) rest
      else if p = "]" then
        match parens with
        | [] => .error (.missingOpenParenthesis ']')
        | q :: ps =>
          if q = '[' then collectArgsGo ps args (current ++ [t]) rest
          else .error (.unclosedParenthesis q)
      else if p = "\x7b" then
        collectArgsGo (curlyOpenCh :: parens) args (current ++ [t]) rest
      else if p = "\x7d" then
        match parens with
        | [] => .error (.missingOpenParenthesis curlyCloseCh)
        | q :: ps =>
          if q = curlyOpenCh then collectArgsGo ps args (current ++ [t]) rest
          else .error (.unclosedParenthesis q)
      else if p = "," then
        match parens with
        | [] => collectArgsGo [] (args ++ [current]) [] rest
        | ps => collectArgsGo ps args (current ++ [t]) rest
      else collectArgsGo parens args (current ++ [t]) rest
    | t => collectArgsGo parens args (current ++ [t]) rest

/-- Embeds `MacroSet::collect_args` from `src/macro_set.rs`
(lines 560-621): the stream must start with `(`; on success the
remainder past the closing `)` is returned alongside the arguments. -/
def collectArgs (it : List Tok) : Except ExpErr (List (List Tok) × List Tok) :=
  match it with
  | .punctuation "(" :: rest => collectArgsGo [] [] [] rest
  | _ => .error (.missingOpenParenthesis '(')

/-- Pops trailing comments, then the last token: the left operand of a
paste (the source's `until_no_whitespace!(tokens.pop(), ConcatBegin)`). -/
def popNonComment : List Tok → Option (Tok × List Tok)
  | [] => none
  | [t] =>
    match t with
    | .comment _ => none
    | t => some (t, [])
  | t :: ts =>
    match popNonComment ts with
    | some (l, rest) => some (l, t :: rest)
    | none =>
      match t with
      | .comment _ => none
      | t => some (t, [])

/-- Whether a token is a macro parameter or `__VA_ARGS__` (the
`matches!(…, MacroArg(_) | VarArgs)` guards). -/
def isArgTok : Tok → Bool
  | .macroArg _ => true
  | .varArgs => true
  | _ => false

mutual

/-- Embeds `MacroSet::expand_concat` from `src/macro_set.rs`
(lines 690-729); `tokens` is the output accumulator, the second list the
remaining input. -/
def expandConcatGo : List Tok → List Tok → Res (List Tok)
  | tokens, [] => .ok tokens
  | tokens, t :: it =>
    match t with
    | .punctuation "##" =>
      if ¬ ((tokens.getLast?.map isArgTok).getD false) ∧
          ¬ ((it.head?.map isArgTok).getD false) then
        match popNonComment tokens with
        | none => .err .concatBegin
        | some (lhs, tokens2) =>
          if it.head? = some (.punctuation "##") then
            match Tok.concat lhs .placemarker with
            | .ok r => expandConcatGo (tokens2 ++ [r]) it
            | .err e => .err e
            | .panicked => .panicked
            | .noFuel => .noFuel
          else
            expandConcatRhs lhs tokens2 it
      else
        expandConcatGo (tokens ++ [t]) it
    | t => expandConcatGo (tokens ++ [t]) it
termination_by structural _ l => l

/-- The right operand of a paste: skip comments, then concatenate and
continue the loop (the source's `until_no_whitespace!(it.next(),
ConcatEnd)` followed by `tokens.push(lhs.concat(rhs)?)`). -/
def expandConcatRhs : Tok → List Tok → List Tok → Res (List Tok)
  | _, _, [] => .err .concatEnd
  | lhs, tokens2, .comment _ :: it => expandConcatRhs lhs tokens2 it
  | lhs, tokens2, rhs :: it =>
    match Tok.concat lhs rhs with
    | .ok r => expandConcatGo (tokens2 ++ [r]) it
    | .err e => .err e
    | .panicked => .panicked
    | .noFuel => .noFuel
termination_by structural _ _ l => l

end

/-- Embeds `MacroSet::remove_placemarkers` from `src/macro_set.rs`
(lines 731-733). -/
def removePlacemarkers (tokens : List Tok) : List Tok :=
  tokens.filter (fun t => t ≠ .placemarker)

/-- Embeds `MacroSet::contains_var_args` from `src/macro_set.rs`
(lines 433-435). -/
def containsVarArgs (body : List Tok) : Bool :=
  body.any (fun t => t = .varArgs)

/-- Embeds `MacroSet` from `src/macro_set.rs` (lines 77-81); the two hash
maps are association lists with unique keys. -/
structure MacroSet where
  varMacros : List (String × List String)
  fnMacros : List (String × (List String × List String))
deriving DecidableEq

/-- The `non_replaced_names.insert(name)` step: a `HashSet` insert. -/
def insertName (name : String) (nrn : List String) : List String :=
  if nrn.contains name then nrn else name :: nrn

/-- First parameter that reappears later in the list: the duplicate
check of `expand_fn_macro_body` (lines 537-544). -/
def findDup : List String → Option String
  | [] => none
  | a :: rest => if rest.contains a then some a else findDup rest

/-- Arity check of `expand_fn_macro_body` (lines 523-534), applied only
to non-variadic macros with supplied arguments: a mismatch is an error
unless the macro has no parameters and the first argument is empty. -/
def arityErr (name : String) (argNames : List String) :
    Option (List (List Tok)) → Option ExpErr
  | none => none
  | some args =>
    if argNames.length ≠ args.length ∧
        ¬ (argNames = [] ∧ ((args.head?.map List.isEmpty).getD true) = true) then
      some (.fnMacroArgumentError name argNames.length args.length)
    else
      none

/-- The `__VA_ARGS__` joining of `expand_arguments` (lines 645-654):
excess arguments joined with `,`. -/
def joinVarArgs (args : List (List Tok)) : List Tok :=
  List.intercalate [Tok.punctuation ","] args

mutual

/-- Embeds `MacroSet::expand_macro_body` from `src/macro_set.rs`
(lines 437-486). `nrn` is the non-replaced-names set, `tokens` the
accumulated output, the last list the remaining input; after a
substitution the source re-runs the scan over output plus remainder from
the start. Fuel decreases on every recursive call. -/
def expandBody : Nat → MacroSet → List String → List Tok → List Tok → Res (List Tok)
  | 0, _, _, _, _ => .noFuel
  | _ + 1, _, _, tokens, [] => .ok tokens
  | fuel + 1, ms, nrn, tokens, t :: it =>
    match t with
    | .identifier id =>
      if nrn.contains id then
        expandBody fuel ms nrn (tokens ++ [.nonReplacable (.identifier id)]) it
      else
        match (if it.head? = some (.punctuation "(") then ms.fnMacros.lookup id else none) with
        | some (argNames, fnBody) =>
          match collectArgs it with
          | .ok (args, it2) =>
            match expandFnBody fuel ms nrn id argNames (some args) (tokenizeBody argNames fnBody) with
            | .ok expanded => expandBody fuel ms nrn [] (tokens ++ expanded ++ it2)
            | .err e => .err e
            | .panicked => .panicked
            | .noFuel => .noFuel
          | .error _ => expandBodyVar fuel ms nrn tokens (.identifier id) id it
        | none => expandBodyVar fuel ms nrn tokens (.identifier id) id it
    | t => expandBody fuel ms nrn (tokens ++ [t]) it
termination_by structural fuel => fuel

/-- The fall-through of the scan for an identifier that did not expand as
a function-like call: the variable-like check and the plain push
(lines 470-478 of `src/macro_set.rs`). -/
def expandBodyVar :
    Nat → MacroSet → List String → List Tok → Tok → String → List Tok → Res (List Tok)
  | 0, _, _, _, _, _, _ => .noFuel
  | fuel + 1, ms, nrn, tokens, tok, id, it =>
    match ms.varMacros.lookup id with
    | some vbody =>
      match expandVarBody fuel ms nrn id (tokenizeBody [] vbody) with
      | .ok expanded => expandBody fuel ms nrn [] (tokens ++ expanded ++ it)
      | .err e => .err e
      | .panicked => .panicked
      | .noFuel => .noFuel
    | none => expandBody fuel ms nrn (tokens ++ [tok]) it
termination_by structural fuel => fuel

/-- Embeds `MacroSet::expand_var_macro_body` from `src/macro_set.rs`
(lines 488-505). -/
def expandVarBody : Nat → MacroSet → List String → String → List Tok → Res (List Tok)
  | 0, _, _, _, _ => .noFuel
  | fuel + 1, ms, nrn, name, body =>
    if containsVarArgs body then .err .nonVariadicVarArgs
    else
      match expandConcatGo [] body with
      | .ok body2 => expandBody fuel ms (insertName name nrn) [] (removePlacemarkers body2)
      | .err e => .err e
      | .panicked => .panicked
      | .noFuel => .noFuel
termination_by structural fuel => fuel

/-- Embeds `MacroSet::expand_fn_macro_body` from `src/macro_set.rs`
(lines 507-558): variadic detection, the `__VA_ARGS__` and arity checks
for non-variadic macros, the duplicate-parameter check, argument
substitution, concatenation, placemarker removal and the final rescan
with the macro's own name added to the non-replaced set. -/
def expandFnBody :
    Nat → MacroSet → List String → String → List String →
    Option (List (List Tok)) → List Tok → Res (List Tok)
  | 0, _, _, _, _, _, _ => .noFuel
  | fuel + 1, ms, nrn, name, argNames, argsOpt, body =>
    let isVariadic := argNames.getLast? = some "..."
    if ¬ isVariadic ∧ containsVarArgs body then .err .nonVariadicVarArgs
    else
      match (if isVariadic then none else arityErr name argNames argsOpt) with
      | some e => .err e
      | none =>
        match findDup argNames with
        | some d => .err (.nonUniqueArgument d)
        | none =>
          let afterArgs : Res (List Tok) :=
            match argsOpt with
            | some args => expandArguments fuel ms nrn argNames args [] body
            | none => .ok body
          match afterArgs with
          | .ok body2 =>
            match expandConcatGo [] body2 with
            | .ok body3 =>
              expandBody fuel ms (insertName name nrn) [] (removePlacemarkers body3)
            | .err e => .err e
            | .panicked => .panicked
            | .noFuel => .noFuel
          | .err e => .err e
          | .panicked => .panicked
          | .noFuel => .noFuel
termination_by structural fuel => fuel

/-- Embeds `MacroSet::expand_arguments` from `src/macro_set.rs`
(lines 623-688): walks the body, substituting parameters.  The argument
lookup `args[arg_index]` and the variadic slice `args[arg_names.len()-1..]`
panic in Rust when out of bounds; those are the `panicked` outcomes. -/
def expandArguments :
    Nat → MacroSet → List String → List String → List (List Tok) →
    List Tok → List Tok → Res (List Tok)
  | 0, _, _, _, _, _, _ => .noFuel
  | _ + 1, _, _, _, _, tokens, [] => .ok tokens
  | fuel + 1, ms, nrn, argNames, args, tokens, t :: it =>
    match t with
    | .punctuation "#" =>
      match it.head? with
      | some (.macroArg _) =>
        expandArguments fuel ms nrn argNames args (tokens ++ [t]) it
      | some .varArgs =>
        expandArguments fuel ms nrn argNames args (tokens ++ [t]) it
      | _ => .err .stringifyNonArgument
    | .macroArg i =>
      match args.get? i with
      | some arg => substArg fuel ms nrn argNames args tokens arg it
      | none => .panicked
    | .varArgs =>
      if argNames.isEmpty then .panicked
      else if args.length < argNames.length - 1 then .panicked
      else substArg fuel ms nrn argNames args tokens (joinVarArgs (args.drop (argNames.length - 1))) it
    | t => expandArguments fuel ms nrn argNames args (tokens ++ [t]) it
termination_by structural fuel => fuel

/-- Substitution of one collected argument into the body (lines 657-681
of `src/macro_set.rs`): stringify after `#`, paste-adjacent arguments are
expanded and an empty expansion becomes a placemarker, other arguments
are expanded and spliced. -/
def substArg :
    Nat → MacroSet → List String → List String → List (List Tok) →
    List Tok → List Tok → List Tok → Res (List Tok)
  | 0, _, _, _, _, _, _, _ => .noFuel
  | fuel + 1, ms, nrn, argNames, args, tokens, arg, it =>
    match tokens.getLast? with
    | some (.punctuation "#") =>
      expandArguments fuel ms nrn argNames args
        (tokens.dropLast ++ stringifyToks arg (nrn.length > 1)) it
    | some (.punctuation "##") =>
      match expandBody fuel ms nrn [] arg with
      | .ok ex =>
        expandArguments fuel ms nrn argNames args
          (tokens ++ (if ex.isEmpty then [.placemarker] else ex)) it
      | .err e => .err e
      | .panicked => .panicked
      | .noFuel => .noFuel
    | _ =>
      if it.head? = some (.punctuation "##") then
        match expandBody fuel ms nrn [] arg with
        | .ok ex =>
          expandArguments fuel ms nrn argNames args
            (tokens ++ (if ex.isEmpty then [.placemarker] else ex)) it
        | .err e => .err e
        | .panicked => .panicked
        | .noFuel => .noFuel
      else
        match expandBody fuel ms nrn [] arg with
        | .ok ex => expandArguments fuel ms nrn argNames args (tokens ++ ex) it
        | .err e => .err e
        | .panicked => .panicked
        | .noFuel => .noFuel
termination_by structural fuel => fuel

end

end CM

namespace CM

/-- Embeds `MacroSet::expand_var_macro` from `src/macro_set.rs`
(lines 802-808). -/
def expandVar (fuel : Nat) (ms : MacroSet) (name : String) : Res (List MacroToken) :=
  match ms.varMacros.lookup name with
  | none => .err .macroNotFound
  | some body =>
    match expandVarBody fuel ms [] name (tokenizeBody [] body) with
    | .ok toks => .ok (detokList [] toks)
    | .err e => .err e
    | .panicked => .panicked
    | .noFuel => .noFuel

/-- Embeds `MacroSet::expand_fn_macro` from `src/macro_set.rs`
(lines 810-831): the parameter list mapped to tokens, and the expanded
body template. -/
def expandFn (fuel : Nat) (ms : MacroSet) (name : String) :
    Res (List MacroToken × List MacroToken) :=
  match ms.fnMacros.lookup name with
  | none => .err .macroNotFound
  | some (argNames, body) =>
    match expandFnBody fuel ms [] name argNames none (tokenizeBody argNames body) with
    | .ok toks =>
      .ok
        (argNames.map fun a =>
          match identFromStr a with
          | some id => MacroToken.id id
          | none => MacroToken.token a,
        detokList argNames toks)
    | .err e => .err e
    | .panicked => .panicked
    | .noFuel => .noFuel

/-- Embeds `MacroSet::define_var_macro` from `src/macro_set.rs`
(lines 738-759): removes any old variable-like entry; when none existed,
removes a function-like entry under the same name; reports `redefined`
per the whitespace-insensitive `zip`-comparison of the source; then
inserts the new body. Returns the report and the updated set. -/
def defineVar (ms : MacroSet) (name : String) (body : List String) : Bool × MacroSet :=
  let old := ms.varMacros.lookup name
  let varsRemoved := ms.varMacros.filter fun p => p.1 ≠ name
  match old with
  | some oldBody =>
    let oldT := oldBody.filter fun t => !(isWhitespace t)
    let newT := body.filter fun t => !(isWhitespace t)
    let redefined := !((oldT.zip newT).all fun p => p.1 == p.2)
    (redefined, ⟨(name, body) :: varsRemoved, ms.fnMacros⟩)
  | none =>
    let redefined := (ms.fnMacros.lookup name).isSome
    (redefined, ⟨(name, body) :: varsRemoved, ms.fnMacros.filter fun p => p.1 ≠ name⟩)

/-- Embeds `MacroSet::define_fn_macro` from `src/macro_set.rs`
(lines 764-793). -/
def defineFn (ms : MacroSet) (name : String) (args : List String) (body : List String) :
    Bool × MacroSet :=
  let old := ms.fnMacros.lookup name
  let fnsRemoved := ms.fnMacros.filter fun p => p.1 ≠ name
  match old with
  | some (oldArgs, oldBody) =>
    let oldArgsT := oldArgs.filter fun t => !(isWhitespace t)
    let newArgsT := args.filter fun t => !(isWhitespace t)
    let argsEqual := (oldArgsT.zip newArgsT).all fun p => p.1 == p.2
    let oldT := oldBody.filter fun t => !(isWhitespace t)
    let newT := body.filter fun t => !(isWhitespace t)
    let tokensEqual := (oldT.zip newT).all fun p => p.1 == p.2
    (!(argsEqual && tokensEqual), ⟨ms.varMacros, (name, (args, body)) :: fnsRemoved⟩)
  | none =>
    let redefined := (ms.varMacros.lookup name).isSome
    (redefined, ⟨ms.varMacros.filter fun p => p.1 ≠ name, (name, (args, body)) :: fnsRemoved⟩)

end CM

namespace CM

/-- Embeds `TypeQualifier` from `src/ast/ty.rs` (lines 324-332). -/
inductive TypeQualifier where
  | const
  | volatile
  | constVolatile
deriving DecidableEq

/-- Embeds `TypeQualifier::is_const` (lines 336-338). -/
def TypeQualifier.isConst : TypeQualifier → Bool
  | .const => true
  | .constVolatile => true
  | .volatile => false

/-- Embeds `TypeQualifier::is_volatile` (lines 341-343). -/
def TypeQualifier.isVolatile : TypeQualifier → Bool
  | .volatile => true
  | .constVolatile => true
  | .const => false

/-- Embeds `TypeQualifier::or` from `src/ast/ty.rs` (lines 345-351),
arm for arm: note the source maps `(Volatile, Volatile)` to `Const`. -/
def TypeQualifier.or : TypeQualifier → TypeQualifier → TypeQualifier
  | .const, .const => .const
  | .volatile, .volatile => .const
  | _, _ => .constVolatile

/-- Embeds `Type` from `src/ast/ty.rs` (lines 363-379); the `Identifier`
expression and path segments are kept as plain strings, which no claim
inspects further. -/
inductive Ty where
  | builtIn (b : BuiltInType)
  | identifier (name : String) (isStruct : Bool)
  | path (leadingColon : Bool) (segments : List String)
  | ptr (ty : Ty)
  | qualified (ty : Ty) (qualifier : TypeQualifier)
deriving DecidableEq

/-- Embeds `Type::qualify` from `src/ast/ty.rs` (lines 405-412). -/
def Ty.qualify : Ty → TypeQualifier → Ty
  | .qualified ty existing, q => .qualified ty (existing.or q)
  | ty, q => .qualified ty q

/-- A type whose root is not a `Qualified` wrapping another `Qualified`
directly (the invariant of spec section 3). -/
def Ty.rootNotDoublyQualified : Ty → Prop
  | .qualified ty _ =>
    match ty with
    | .qualified _ _ => False
    | _ => True
  | _ => True

/-- Embeds `BuiltInType::to_rust_ty` from `src/ast/ty.rs` (lines 155-188)
as the spelling of the produced scalar type, under no FFI prefix.
`resolveSizeT` is the oracle result for `ctx.resolve_ty("size_t")` and
`nightly` the default-true nightly test (line 179), exactly the branch
structure of the `SizeT` arm. -/
def toRustTy (resolveSizeT : Option String) (nightly : Bool) : BuiltInType → String
  | .float => "f32"
  | .double => "f64"
  | .longDouble => "f64"
  | .bool => "bool"
  | .char => "c_char"
  | .schar => "c_schar"
  | .uchar => "c_uchar"
  | .char8T => "u8"
  | .char16T => "u16"
  | .char32T => "u32"
  | .short => "c_short"
  | .ushort => "c_ushort"
  | .int => "c_int"
  | .uint => "c_uint"
  | .long => "c_long"
  | .ulong => "c_ulong"
  | .longLong => "c_longlong"
  | .ulongLong => "c_ulonglong"
  | .sizeT =>
    match resolveSizeT with
    | some t => t
    | none => if nightly then "c_size_t" else "usize"
  | .ssizeT => "ssize_t"
  | .void => "c_void"

/-- Embeds `BuiltInType::from_rust_ty` from `src/ast/ty.rs`
(lines 81-153) with no FFI prefix: the single path segment is matched
against the spellings, in the source's order. -/
def fromRustTy (id : String) : Option BuiltInType :=
  if id = "f32" then some .float
  else if id = "f64" then some .double
  else if id = "f128" then some .longDouble
  else if id = "bool" then some .bool
  else if id = "c_char" then some .char
  else if id = "c_schar" then some .schar
  else if id = "c_uchar" then some .uchar
  else if id = "u8" then some .char8T
  else if id = "u16" then some .char16T
  else if id = "u32" then some .char32T
  else if id = "c_short" then some .short
  else if id = "c_ushort" then some .ushort
  else if id = "c_int" then some .int
  else if id = "c_uint" then some .uint
  else if id = "c_long" then some .long
  else if id = "c_ulong" then some .ulong
  else if id = "c_longlong" then some .longLong
  else if id = "c_ulonglong" then some .ulongLong
  else if id = "size_t" then some .sizeT
  else if id = "ssize_t" then some .ssizeT
  else if id = "c_void" then some .void
  else none

/-- The fixed policy of claim C9: no FFI prefix and the identity oracle,
which resolves `size_t` to the spelling `size_t`. -/
def toRustTyId (b : BuiltInType) : String :=
  toRustTy (some "size_t") true b

end CM

namespace CM

/-- Embeds `BinaryOp` (its file is not in the provided sources; the
constructor set is read off the parser and the `finish` arms of
`src/ast/expr.rs`). -/
inductive BinOp where
  | mul
  | div
  | rem
  | add
  | sub
  | shl
  | shr
  | bitAnd
  | bitOr
  | bitXor
  | eq
  | neq
  | and
  | or
  | lt
  | lte
  | gt
  | gte
  | assign
  | addAssign
  | subAssign
  | mulAssign
  | divAssign
  | remAssign
  | shlAssign
  | shrAssign
  | bitAndAssign
  | bitXorAssign
  | bitOrAssign
deriving DecidableEq

/-- The comparison and logical operators of the `finish` arm at
lines 689-700 of `src/ast/expr.rs`. -/
def BinOp.isCmpOrLogical : BinOp → Bool
  | .eq | .neq | .and | .or | .lt | .lte | .gt | .gte => true
  | _ => false

/-- Expression fragment for the finish pass of `src/ast/expr.rs`:
integer and float literals, an already-finished operand of known
optional type (`atom` stands for a variable, call, cast or any other
non-literal node), and binary and ternary nodes. -/
inductive FExpr where
  | litInt (value : Int) (suffix : Option BuiltInType)
  | litFloat (value : Rat)
  | atom (ty : Option Ty)
  | binary (op : BinOp) (lhs rhs : FExpr)
  | ternary (cond ifBranch elseBranch : FExpr)
deriving DecidableEq

/-- Rank of an integer-literal suffix for promotion. -/
def suffixRank : BuiltInType → Nat
  | .longLong => 2
  | .ulongLong => 2
  | .long => 1
  | .ulong => 1
  | _ => 0

/-- Whether a suffix is an unsigned integer type. -/
def isUnsignedSfx : BuiltInType → Bool
  | .uint | .ulong | .ulongLong => true
  | _ => false

/-- Modelled from the spec: the literal module implementing `LitInt`
arithmetic is not in the provided sources; spec section 4.4 says constant
folding preserves the C suffix/width promotion rule, modelled as
integer-conversion-rank promotion (no suffix ranks below every suffix;
at equal rank the unsigned suffix wins). -/
def promoteSuffix : Option BuiltInType → Option BuiltInType → Option BuiltInType
  | none, s => s
  | s, none => s
  | some a, some b =>
    if suffixRank b < suffixRank a then some a
    else if suffixRank a < suffixRank b then some b
    else if isUnsignedSfx a then some a else some b

/-- The constant-folding arms of the `Binary` case of `Expr::finish`
(`src/ast/expr.rs` lines 632-688), in the source's arm order: both
operands literals of the same numeric category under the listed
operator. Division and remainder are truncating (spec section 4.4). -/
def litFold : BinOp → FExpr → FExpr → Option FExpr
  | .mul, .litFloat a, .litFloat b => some (.litFloat (a * b))
  | .mul, .litInt a sa, .litInt b sb => some (.litInt (a * b) (promoteSuffix sa sb))
  | .div, .litFloat a, .litFloat b => some (.litFloat (a / b))
  | .div, .litInt a sa, .litInt b sb => some (.litInt (a.tdiv b) (promoteSuffix sa sb))
  | .rem, .litInt a sa, .litInt b sb => some (.litInt (a.tmod b) (promoteSuffix sa sb))
  | .add, .litFloat a, .litFloat b => some (.litFloat (a + b))
  | .add, .litInt a sa, .litInt b sb => some (.litInt (a + b) (promoteSuffix sa sb))
  | .sub, .litFloat a, .litFloat b => some (.litFloat (a - b))
  | .sub, .litInt a sa, .litInt b sb => some (.litInt (a - b) (promoteSuffix sa sb))
  | .shl, .litInt a sa, .litInt b sb =>
    some (.litInt (a * (2 : Int) ^ b.toNat) (promoteSuffix sa sb))
  | .shr, .litInt a sa, .litInt b sb =>
    some (.litInt (a.tdiv ((2 : Int) ^ b.toNat)) (promoteSuffix sa sb))
  | .bitAnd, .litInt a sa, .litInt b sb =>
    some (.litInt (Int.ofNat (a.toNat &&& b.toNat)) (promoteSuffix sa sb))
  | .bitOr, .litInt a sa, .litInt b sb =>
    some (.litInt (Int.ofNat (a.toNat ||| b.toNat)) (promoteSuffix sa sb))
  | .bitXor, .litInt a sa, .litInt b sb =>
    some (.litInt (Int.ofNat (a.toNat ^^^ b.toNat)) (promoteSuffix sa sb))
  | _, _, _ => none

/-- Modelled from the spec: the type `Lit::finish` reports for a literal
(the literal module is not in the provided sources): the suffix type of
a suffixed integer literal, no type for an unsuffixed one, `double` for
a float literal. -/
def litValTy : FExpr → Option Ty
  | .litInt _ s => s.map Ty.builtIn
  | .litFloat _ => some (.builtIn .double)
  | _ => none

/-- Embeds Rust's `Option::xor` used at lines 705 and 718 of
`src/ast/expr.rs`. -/
def optXor : Option Ty → Option Ty → Option Ty
  | some a, none => some a
  | none, some b => some b
  | _, _ => none

/-- Embeds the `Binary` and `Ternary` arms of `Expr::finish` from
`src/ast/expr.rs` (lines 628-720) over the fragment: operands are
finished first (`BinaryExpr::finish` returns both operand types); a
folding arm replaces the node by the folded literal and re-finishes it
(for a literal that is its own type); comparisons and logical operators
yield `Bool`; otherwise equal operand types propagate and unequal ones
take the `Option::xor`. -/
def finishF : FExpr → FExpr × Option Ty
  | .litInt v s => (.litInt v s, litValTy (.litInt v s))
  | .litFloat v => (.litFloat v, litValTy (.litFloat v))
  | .atom t => (.atom t, t)
  | .binary op l r =>
    let lf := finishF l
    let rf := finishF r
    match litFold op lf.1 rf.1 with
    | some folded => (folded, litValTy folded)
    | none =>
      if op.isCmpOrLogical then (.binary op lf.1 rf.1, some (.builtIn .bool))
      else (.binary op lf.1 rf.1, if lf.2 = rf.2 then lf.2 else optXor lf.2 rf.2)
  | .ternary c t e =>
    let cf := finishF c
    let tf := finishF t
    let ef := finishF e
    (.ternary cf.1 tf.1 ef.1, if tf.2 = ef.2 then tf.2 else optXor tf.2 ef.2)

end CM

namespace CM

/-- The empty macro set (`MacroSet::new`). -/
def msEmpty : MacroSet := ⟨[], []⟩

/-- Claim C1 fixture: the ISO C 6.10.3.5 example 3 prefix, built in
definition order, plus a variable-like macro `call` whose body is the
invocation `g(8)`. -/
def msIso3 : MacroSet :=
  let s := msEmpty
  let s := (defineVar s "x" ["3"]).2
  let s := (defineFn s "f" ["a"] ["f", "(", "x", "*", "(", "a", ")", ")"]).2
  let s := (defineVar s "x" ["2"]).2
  let s := (defineVar s "g" ["f"]).2
  (defineVar s "call" ["g", "(", "8", ")"]).2

/-- Claim C2 fixture: the self-referential macro `A` with body `A`. -/
def msSelfRef : MacroSet := (defineVar msEmpty "A" ["A"]).2

/-- Claim C2 fixture: mutually recursive variable-like macros. -/
def msMutual : MacroSet :=
  let s := (defineVar msEmpty "A" ["B"]).2
  (defineVar s "B" ["A"]).2

/-- Claim C3 fixture: variadic `F(a, b, ...)` invoked as `F(1)`, fewer
arguments than named parameters. -/
def msVariadic : MacroSet :=
  let s := (defineFn msEmpty "F" ["a", "b", "..."] ["b"]).2
  (defineVar s "CALL" ["F", "(", "1", ")"]).2

/-- Claim C4 fixture: `M` defined with body `A`, to be redefined with the
strictly extended body `A B`. -/
def msRedef : MacroSet := (defineVar msEmpty "M" ["A"]).2

/-- Claim C5 fixture: a zero-parameter macro invoked with two empty
arguments, `F0(,)`. -/
def msZeroParam : MacroSet :=
  let s := (defineFn msEmpty "F0" [] ["x"]).2
  (defineVar s "CALL" ["F0", "(", ",", ")"]).2

/-- Claim C6 fixture: body `A ## B` with `A` and `B` defined as macros. -/
def msConcatDefined : MacroSet :=
  let s := (defineVar msEmpty "A" ["1"]).2
  let s := (defineVar s "B" ["2"]).2
  (defineVar s "CONCAT" ["A", "##", "B"]).2

/-- Claim C6 fixture: body `A ## B` with `A` and `B` undefined. -/
def msConcatPlain : MacroSet := (defineVar msEmpty "CONCAT" ["A", "##", "B"]).2

/-- Claim C6 fixture: body `. ## 123`. -/
def msConcatDot : MacroSet := (defineVar msEmpty "CONCAT" [".", "##", "123"]).2

/-- Claim C7 fixture: `FUNC1` is a two-parameter macro; `H` contains the
unterminated invocation `FUNC1 ( 1`. -/
def msUnclosed : MacroSet :=
  let s := (defineFn msEmpty "FUNC1" ["a", "b"] ["a", "+", "b"]).2
  (defineVar s "H" ["FUNC1", "(", "1"]).2

/-- Claim C1: with the macro set `x` = 3, `f(a)` = `f(x * (a))`, `x`
redefined to 2, `g` = `f` (in definition order), expanding a
variable-like macro whose body is `g(8)` succeeds and yields exactly the
tokens `f ( 2 * ( 8 ) )`: identifier `f`, `(`, integer literal 2, `*`,
`(`, integer literal 8, `)`, `)` (ISO C 6.10.3.5 example 3). -/
theorem c1_iso_example3_expansion :
    expandVar 64 msIso3 "call" =
      .ok [.id "f", .token "(", .lit (.int 2 none), .token "*", .token "(",
        .lit (.int 8 none), .token ")", .token ")"] := by
  rfl

/-- Supporting fixture for claim C2: `#define A A` expands to `Ok` with
the single token `A`; internally the occurrence is wrapped
`NonReplacable`. -/
theorem selfReferenceExpansionTerminates :
    expandVar 16 msSelfRef "A" = .ok [.id "A"] ∧
    expandVarBody 16 msSelfRef [] "A" [.identifier "A"] =
      .ok [.nonReplacable (.identifier "A")] := by
  exact ⟨by rfl, by rfl⟩

/-- Supporting fixture for claim C2: mutually recursive `A` = `B`,
`B` = `A`: expanding `A` terminates, leaving the second occurrence of
`A` unexpanded (wrapped `NonReplacable` internally). -/
theorem mutualRecursionExpansionTerminates :
    expandVar 16 msMutual "A" = .ok [.id "A"] ∧
    expandVarBody 16 msMutual [] "A" [.identifier "B"] =
      .ok [.nonReplacable (.identifier "A")] := by
  exact ⟨by rfl, by rfl⟩

/-- Claim C3 (code bug): expanding a body that invokes the variadic
macro `F(a, b, ...)` with a single argument reaches the out-of-bounds
argument access `args[arg_index]` in `expand_arguments` and panics,
instead of returning `Ok` or a structural `ExpansionError`. -/
theorem c3_variadic_underflow_panics :
    expandVar 32 msVariadic "CALL" = .panicked := by
  rfl

/-- Claim C4 (code bug): redefining `M` (body `A`) with the strictly
extended body `A B` replaces the stored body but is reported as `false`
(not redefined), because the source compares the whitespace-filtered
token sequences with `zip`, which stops at the shorter sequence. -/
theorem c4_extended_redefinition_reported_false :
    (defineVar msRedef "M" ["A", "B"]).1 = false ∧
    (defineVar msRedef "M" ["A", "B"]).2.varMacros.lookup "M" = some ["A", "B"] ∧
    ["A"].filter (fun t => !(isWhitespace t)) ≠
      ["A", "B"].filter (fun t => !(isWhitespace t)) := by
  exact ⟨by rfl, by rfl, by decide⟩

/-- Claim C5 counterexample: the zero-parameter macro `F0` invoked as
`F0(,)` passes two comma-separated (empty) arguments, yet expansion
succeeds instead of failing with `FnMacroArgumentError` at required 0,
given 2: the tolerance checks only that the first argument is empty. -/
theorem c5_zero_param_two_empty_args_accepted :
    expandVar 32 msZeroParam "CALL" = .ok [.id "x"] ∧
    expandVar 32 msZeroParam "CALL" ≠ .err (.fnMacroArgumentError "F0" 0 2) := by
  exact ⟨by rfl, by decide⟩

/-- Claim C5 (amended): for a non-variadic function-like macro whose
body does not use `__VA_ARGS__`, an invocation whose argument count
differs from the parameter count fails with `FnMacroArgumentError`
carrying the macro's name, the parameter count and the argument count —
unless the macro has no parameters and the first argument is empty, in
which case the invocation is accepted. -/
theorem c5_arity_mismatch_error (fuel : Nat) (ms : MacroSet) (nrn : List String)
    (name : String) (argNames : List String) (args : List (List Tok)) (body : List Tok)
    (hvar : argNames.getLast? ≠ some "...")
    (hva : containsVarArgs body = false)
    (hlen : argNames.length ≠ args.length)
    (hexc : ¬ (argNames = [] ∧ ((args.head?.map List.isEmpty).getD true) = true)) :
    expandFnBody (fuel + 1) ms nrn name argNames (some args) body =
      .err (.fnMacroArgumentError name argNames.length args.length) := by
  simp only [expandFnBody, arityErr]
  rw [if_neg, if_neg hvar, if_pos ⟨hlen, hexc⟩]
  simp [hva]

/-- Witness for claim C5's theorem: a 2-parameter macro invoked with 3
arguments yields required 2, given 3. -/
theorem c5_arity_mismatch_error_witness :
    expandFnBody 1 msEmpty [] "m" ["a", "b"] (some [[], [], []]) [] =
      .err (.fnMacroArgumentError "m" 2 3) :=
  c5_arity_mismatch_error 0 msEmpty [] "m" ["a", "b"] [[], [], []] []
    (by decide) (by rfl) (by decide) (by decide)

/-- Claim C6 counterexample: with `A` defined as 1 and `B` defined as 2,
the body `A ## B` does not paste the macro-expanded values (which would
give the literal 12): concatenation applies before replacement and the
result is the single identifier `AB`. -/
theorem c6_concat_pastes_names_not_values :
    expandVar 32 msConcatDefined "CONCAT" = .ok [.id "AB"] ∧
    expandVar 32 msConcatDefined "CONCAT" ≠ .ok [.lit (.int 12 none)] := by
  exact ⟨by rfl, by decide⟩

/-- Claim C6 (amended): the body `A ## B` pastes the body tokens
themselves, yielding the identifier `AB` whether or not `A` and `B` are
defined as macros (their definitions are not consulted, since `##`
applies before replacement and `AB` is not a defined macro); and pasting
the punctuation `.` with the integer literal 123 yields the float
literal 0.123. -/
theorem c6_concat_results :
    expandVar 32 msConcatDefined "CONCAT" = .ok [.id "AB"] ∧
    expandVar 32 msConcatPlain "CONCAT" = .ok [.id "AB"] ∧
    expandVar 32 msConcatDot "CONCAT" =
      .ok [.lit (.float (.double ((123 : Rat) / 1000)))] := by
  exact ⟨by rfl, by rfl, by rfl⟩

/-- Claim C7 counterexample: expanding `H`, whose body contains the
unterminated invocation `FUNC1 ( 1`, returns `Ok` with the macro name
left as plain text, not `UnclosedParenthesis`: the scan swallows
`collect_args` errors. -/
theorem c7_unclosed_invocation_returns_ok :
    expandVar 32 msUnclosed "H" = .ok [.id "FUNC1", .token "(", .lit (.int 1 none)] ∧
    expandVar 32 msUnclosed "H" ≠ .err (.unclosedParenthesis '(') := by
  exact ⟨by rfl, by decide⟩

/-- Claim C7 (amended): `collect_args` itself reports
`UnclosedParenthesis` when the stream ends at unmatched depth and
`MissingOpenParenthesis` when a closing bracket appears with no matching
opener; but the expansion scan swallows these errors, so a top-level
expansion whose body contains such an unterminated invocation returns
`Ok` with the macro name left as plain text. -/
theorem c7_collect_args_errors_and_swallowing :
    collectArgs [.punctuation "(", .literal (.int 1 none) "1"] =
      .error (.unclosedParenthesis '(') ∧
    collectArgs [.punctuation "(", .punctuation "]"] =
      .error (.missingOpenParenthesis ']') ∧
    expandVar 32 msUnclosed "H" =
      .ok [.id "FUNC1", .token "(", .lit (.int 1 none)] := by
  exact ⟨by rfl, by rfl, by rfl⟩

/-- Claim C8 (code bug): `TypeQualifier::or` maps `(Volatile, Volatile)`
to `Const`, so qualifying a type twice with `volatile` yields a `const`
qualifier instead of `volatile`; the other combinations merge as the
union. -/
theorem c8_volatile_or_volatile_gives_const :
    TypeQualifier.volatile.or .volatile = .const ∧
    ((Ty.builtIn .int).qualify .volatile).qualify .volatile =
      .qualified (.builtIn .int) .const ∧
    (TypeQualifier.const.or .volatile = .constVolatile ∧
      TypeQualifier.volatile.or .const = .constVolatile ∧
      TypeQualifier.const.or .const = .const ∧
      TypeQualifier.constVolatile.or .volatile = .constVolatile) := by
  exact ⟨rfl, rfl, rfl, rfl, rfl, rfl⟩

/-- Supporting invariant for claim C8: `Type::qualify` never produces a
`Qualified` node whose direct child is another `Qualified` node, starting
from a type whose root satisfies that. -/
theorem qualifyKeepsRootNotDoublyQualified (t : Ty) (q : TypeQualifier)
    (h : t.rootNotDoublyQualified) : (t.qualify q).rootNotDoublyQualified := by
  cases t with
  | qualified ty q2 =>
    simp only [Ty.qualify]
    simpa [Ty.rootNotDoublyQualified] using h
  | builtIn b => trivial
  | identifier n s => trivial
  | path l s => trivial
  | ptr ty => trivial

/-- Witness for the C8 supporting invariant at a concrete type. -/
theorem qualifyKeepsRootNotDoublyQualifiedWitness :
    ((Ty.builtIn .int).qualify .const).rootNotDoublyQualified :=
  qualifyKeepsRootNotDoublyQualified (Ty.builtIn .int) .const trivial

/-- Claim C9 counterexample: `Double` and `LongDouble` both map to the
target spelling `f64`, and mapping `LongDouble` to the target and back
returns `Double`, so the mapping is neither injective nor a round trip
on all of `BuiltInType`. -/
theorem c9_longdouble_collides_with_double :
    toRustTyId .double = toRustTyId .longDouble ∧
    BuiltInType.double ≠ .longDouble ∧
    fromRustTy (toRustTyId .longDouble) = some .double := by
  exact ⟨rfl, by decide, rfl⟩

/-- Claim C9 (amended): under no FFI prefix and the identity oracle for
`size_t`, every `BuiltInType` other than `LongDouble` maps to a target
spelling and back to itself, and the mapping is injective away from
`LongDouble`; `LongDouble` shares the spelling `f64` with `Double` and
round-trips to `Double`. -/
theorem c9_roundtrip_except_longdouble :
    (∀ b : BuiltInType, b ≠ .longDouble → fromRustTy (toRustTyId b) = some b) ∧
    (∀ a b : BuiltInType, a ≠ .longDouble → b ≠ .longDouble →
      toRustTyId a = toRustTyId b → a = b) := by
  have rt : ∀ b : BuiltInType, b ≠ .longDouble → fromRustTy (toRustTyId b) = some b := by
    intro b hb
    cases b <;> first | rfl | exact absurd rfl hb
  refine ⟨rt, ?_⟩
  intro a b ha hb h
  have h2 := rt a ha
  rw [h, rt b hb] at h2
  exact (Option.some.inj h2).symm

/-- Witness for claim C9's theorem at concrete types. -/
theorem c9_roundtrip_except_longdouble_witness :
    fromRustTy (toRustTyId .sizeT) = some .sizeT ∧ BuiltInType.char = .char :=
  ⟨c9_roundtrip_except_longdouble.1 .sizeT (by decide),
   c9_roundtrip_except_longdouble.2 .char .char (by decide) (by decide) rfl⟩

/-- For any comparison or logical operator, `litFold` has no arm. -/
theorem litFoldCmpNone (op : BinOp) (h : op.isCmpOrLogical = true) (x y : FExpr) :
    litFold op x y = none := by
  cases op <;> first
    | exact absurd h (by decide)
    | (cases x <;> cases y <;> rfl)

/-- Claim C10 counterexample: adding the literals `2l` and `3ll` — whose
resolved types `long` and `long long` are unequal and both known — is
constant-folded, and the result type is the folded literal's promoted
type `long long`, not the unresolved type the xor tie-break would give. -/
theorem c10_folded_literals_escape_xor :
    (finishF (.litInt 2 (some .long))).2 = some (.builtIn .long) ∧
    (finishF (.litInt 3 (some .longLong))).2 = some (.builtIn .longLong) ∧
    (some (Ty.builtIn .long) : Option Ty) ≠ some (Ty.builtIn .longLong) ∧
    (finishF (.binary .add (.litInt 2 (some .long)) (.litInt 3 (some .longLong)))).2 =
      some (.builtIn .longLong) ∧
    optXor (some (.builtIn .long)) (some (.builtIn .longLong)) = none := by
  exact ⟨rfl, rfl, by decide, rfl, rfl⟩

/-- Claim C10 (amended): in the finish pass, every comparison or logical
binary expression is assigned result type `Bool` regardless of its
operand types; every other binary expression that is not constant-folded
(its operands are not two literals of the same numeric category under a
folding operator) and whose two sides have unequal resolved types gets
the xor tie-break: the one known side's type, or unresolved when both or
neither side resolved a type; and every ternary with unequal branch
types gets the same tie-break. -/
theorem c10_bool_and_xor_typing :
    (∀ (op : BinOp) (l r : FExpr), op.isCmpOrLogical = true →
      (finishF (.binary op l r)).2 = some (.builtIn .bool)) ∧
    (∀ (op : BinOp) (l r : FExpr), op.isCmpOrLogical = false →
      litFold op (finishF l).1 (finishF r).1 = none →
      (finishF l).2 ≠ (finishF r).2 →
      (finishF (.binary op l r)).2 = optXor (finishF l).2 (finishF r).2) ∧
    (∀ c t e : FExpr, (finishF t).2 ≠ (finishF e).2 →
      (finishF (.ternary c t e)).2 = optXor (finishF t).2 (finishF e).2) := by
  refine ⟨?_, ?_, ?_⟩
  · intro op l r h
    simp only [finishF]
    rw [litFoldCmpNone op h]
    simp [h]
  · intro op l r hop hfold hneq
    simp only [finishF]
    rw [hfold]
    simp [hop, hneq]
  · intro c t e hneq
    simp only [finishF]
    simp [hneq]

/-- Witness for claim C10's theorem at concrete expressions. -/
theorem c10_bool_and_xor_typing_witness :
    (finishF (.binary .eq (.atom none) (.atom (some (.builtIn .double))))).2 =
      some (.builtIn .bool) ∧
    (finishF (.binary .add (.atom (some (.builtIn .int))) (.atom none))).2 =
      optXor (some (.builtIn .int)) none ∧
    (finishF (.ternary (.atom none) (.atom (some (.builtIn .int))) (.atom none))).2 =
      optXor (some (.builtIn .int)) none :=
  ⟨c10_bool_and_xor_typing.1 .eq (.atom none) (.atom (some (.builtIn .double))) (by decide),
   c10_bool_and_xor_typing.2.1 .add (.atom (some (.builtIn .int))) (.atom none)
     (by decide) (by rfl) (by decide),
   c10_bool_and_xor_typing.2.2 (.atom none) (.atom (some (.builtIn .int))) (.atom none)
     (by decide)⟩

end CM
